import Mathlib

/-!
Verification of the Aragorn upload orchestration and transfer-progress engine
(`packages/aragorn-app-main/src/uploaderManager.ts`).

The engine is shallowly embedded: the pure parts of `upload`, `download` and
the notification handlers become Lean functions; the JavaScript event loop is
made explicit.  Each `toUpload(file, index, uploadQuence)` closure runs
synchronously up to its first `await` (so per-task preparation and, unless the
gate at line 164 suspends it, the invocation of `uploader.upload`), and the
remaining interleaving is captured by a settlement schedule: a list giving the
order in which the pending adapter promises settle.  Under `Sequence` mode the
order is forced by the `await uploadQuence[index - 1]` gate, so the schedule is
ignored there.  External collaborators (the `aragorn-core` rename helper, the
`mime` lookup, `uuid`, `Date.now`, the adapter itself) are parameters of the
model, collected in `Env` / `Uploader`.  Observable side effects (notifications,
history writes, IPC replies, clipboard operations) are modelled as an ordered
event trace.
-/

namespace Aragorn

/-- A file input of `upload`: either a path string or a `FileFormData` buffer
(`originalname`, `mimetype`, `encoding`, `buffer`, `size`). -/
inductive JsFile
  | pathFile (path : String)
  | formFile (originalname : String) (mimetype : String) (encoding : String)
      (buffer : List Nat) (size : Nat)
deriving DecidableEq, Repr

/-- The `UploaderProfile` record as the engine consumes it: `id`, backend `uploaderName`,
opaque `uploaderOptions`. -/
structure UploaderProfile where
  id : String
  uploaderName : String
  uploaderOptions : List (String × String)
deriving DecidableEq, Repr

/-- The `UploadedFileInfo` record from the source: optional fields stay optional
(`id?`, `name?`, `url?`, `size?`, `errorMessage?`). -/
structure UploadedFileInfo where
  id : Option String := none
  name : Option String := none
  url : Option String := none
  type : String
  uploaderProfileId : String
  path : String
  size : Option Nat := none
  date : Nat
  errorMessage : Option String := none
deriving DecidableEq, Repr

/-- The fields an adapter may return in `res.data`; they are spread over the
task's `baseInfo` (`{...baseInfo, ...res.data}`). -/
structure UploadData where
  url : Option String := none
  name : Option String := none
  size : Option Nat := none
deriving DecidableEq, Repr

/-- Structured adapter verdict: `{success: true, data}` or
`{success: false, desc}`. -/
inductive AdapterResult
  | success (data : UploadData)
  | failure (desc : String)
deriving DecidableEq, Repr

/-- The `uploader.batchUploadMode` discipline. -/
inductive BatchMode
  | Parallel
  | Sequence
deriving DecidableEq, Repr

/-- The argument record of `uploader.upload` built at line 168. -/
structure UploadRequest where
  file : String ⊕ List Nat
  fileName : String
  directoryPath : Option String
  isFromFileManage : Bool
deriving DecidableEq, Repr

/-- An adapter instance.  `upload` returning `Except.error e` models the
adapter throwing an unstructured error with message `e` during the transfer. -/
structure Uploader where
  batchUploadMode : BatchMode
  upload : UploadRequest → Except String AdapterResult

/-- External collaborators of the engine that the claims depend on:
`core.getFileNameByFormat`, `mime.lookup`, `uuidv4` (one fresh value per task,
generated in submission order), `Date.now` at preparation time, and whether the
renderer window is destroyed. -/
structure Env where
  getFileNameByFormat : String → Bool → Option String → String
  mimeLookup : String → Option String
  uuid : Nat → String
  now : Nat → Nat
  winDestroyed : Bool

/-- The settings snapshot read by `upload` / the notification handlers. -/
structure Configuration where
  defaultUploaderProfileId : Option String := none
  proxy : Option String := none
  rename : Bool := false
  renameFormat : Option String := none
  urlType : String := "URL"
  autoCopy : Bool := false
  autoRecover : Bool := false
  sound : Bool := false
  showNotifaction : Bool := true

/-- The `UploadOptions` argument of `upload`. -/
structure UploadOptions where
  files : List JsFile
  customUploaderProfileId : Option String := none
  directoryPath : Option String := none
  isFromFileManage : Bool := false
  testProfile : Option UploaderProfile := none
  isTest : Bool := false

/-- JavaScript falsiness of an optional string: `undefined` and `""` are
falsy. -/
def strFalsy : Option String → Bool
  | none => true
  | some s => s == ""

/-- JavaScript `a || b` on optional strings. -/
def jsOr (a b : Option String) : Option String :=
  if strFalsy a then b else a

/-- JavaScript `a || b` where `b` is a plain string. -/
def jsOrStr (a : Option String) (b : String) : String :=
  if strFalsy a then b else a.getD b

/-- Template-literal interpolation of a possibly-undefined string. -/
def jsTemplate : Option String → String
  | none => "undefined"
  | some s => s

/-- Profile resolution, lines 109–115: on a test request the caller-supplied
test profile is used; otherwise the profile whose id equals
`customUploaderProfileId || defaultUploaderProfileId` is looked up. -/
def selectProfile (opts : UploadOptions) (profiles : List UploaderProfile)
    (defaultId : Option String) : Option UploaderProfile :=
  if opts.isTest then opts.testProfile
  else
    match jsOr opts.customUploaderProfileId defaultId with
    | none => none
    | some target => profiles.find? (fun p => p.id == target)

/-- The original name used for rename-format resolution (line 150). -/
def originalName : JsFile → String
  | .pathFile p => p
  | .formFile n _ _ _ _ => n

/-- The `baseInfo` record built per task, lines 149–162: rename-policy name
resolution, MIME-type inference (extension lookup for paths, supplied metadata
for buffers), fresh id, timestamp and profile id. -/
def mkBaseInfo (env : Env) (cfg : Configuration) (profileId : String)
    (file : JsFile) (index : Nat) : UploadedFileInfo :=
  { id := some (env.uuid index)
    name := some (env.getFileNameByFormat (originalName file) cfg.rename cfg.renameFormat)
    type :=
      match file with
      | .pathFile p => (env.mimeLookup p).getD "-"
      | .formFile _ m _ _ _ => m
    path :=
      match file with
      | .pathFile p => p
      | .formFile _ _ _ _ _ => ""
    date := env.now index
    uploaderProfileId := profileId }

/-- The argument of `uploader.upload` (lines 168–173). -/
def mkRequest (env : Env) (cfg : Configuration) (opts : UploadOptions)
    (file : JsFile) : UploadRequest :=
  { file :=
      match file with
      | .pathFile p => Sum.inl p
      | .formFile _ _ _ buf _ => Sum.inr buf
    fileName := env.getFileNameByFormat (originalName file) cfg.rename cfg.renameFormat
    directoryPath := opts.directoryPath
    isFromFileManage := opts.isFromFileManage }

/-- The spread `{...baseInfo, ...res.data}` at line 175. -/
def mergeData (b : UploadedFileInfo) (d : UploadData) : UploadedFileInfo :=
  { b with
    url := d.url.or b.url
    name := d.name.or b.name
    size := d.size.or b.size }

/-- One settled task outcome: the record pushed to `successRes` or `failRes`. -/
inductive TaskOutcome
  | success (info : UploadedFileInfo)
  | fail (info : UploadedFileInfo)
deriving DecidableEq, Repr

/-- The record carried by an outcome. -/
def outcomeInfo : TaskOutcome → UploadedFileInfo
  | .success r => r
  | .fail r => r

/-- The settlement of task `index`'s adapter call (lines 168–178):
`Except.error` when the adapter throws, otherwise the classified outcome. -/
def settleTask (env : Env) (cfg : Configuration) (profileId : String)
    (uploader : Uploader) (opts : UploadOptions) (file : JsFile) (index : Nat) :
    Except String TaskOutcome :=
  let b := mkBaseInfo env cfg profileId file index
  match uploader.upload (mkRequest env cfg opts file) with
  | .error e => .error e
  | .ok (.success d) => .ok (.success (mergeData b d))
  | .ok (.failure desc) => .ok (.fail { b with errorMessage := some desc })

/-- Task `i`'s settlement, or `none` when there is no task `i` in the batch. -/
def stOpt (env : Env) (cfg : Configuration) (profileId : String)
    (uploader : Uploader) (opts : UploadOptions) (i : Nat) :
    Option (Except String TaskOutcome) :=
  (opts.files[i]?).map (fun f => settleTask env cfg profileId uploader opts f i)

/-- Whether task `i` exists and its adapter call returned a structured
verdict (did not throw). -/
def structuredAt : Option (Except String TaskOutcome) → Bool
  | some (.ok _) => true
  | _ => false

/-- The `id` field of the record a structurally settled task pushed, if any. -/
def taskRecordId : Option (Except String TaskOutcome) → Option String
  | some (.ok o) => (outcomeInfo o).id
  | _ => none

/-- Observable events of one `upload` call, in order of occurrence. -/
inductive Ev
  | prep (i : Nat)
  | transferStart (i : Nat)
  | transferSettle (i : Nat)
  | configureAdapter (options : List (String × String)) (proxy : Option String)
  | historyWrite (records : List UploadedFileInfo)
  | uploadedFilesReply
  | fileManageReply
  | testReply (ok : Bool)
  | callBatchUploaded (succ : Nat) (fail : Nat)
  | callSingleUploaded (succ : Option UploadedFileInfo) (fail : Option UploadedFileInfo)
  | notify (title : String) (body : String)
  | clipboardWrite (text : String)
  | clipboardRead
  | autoRecoverScheduled
deriving DecidableEq, Repr

/-- Task-lifecycle events (preparation, transfer invocation, settlement). -/
def Ev.isTaskEv : Ev → Bool
  | .prep _ => true
  | .transferStart _ => true
  | .transferSettle _ => true
  | _ => false

/-- Settlement events. -/
def Ev.isSettle : Ev → Bool
  | .transferSettle _ => true
  | _ => false

/-- History-write events. -/
def Ev.isHistory : Ev → Bool
  | .historyWrite _ => true
  | _ => false

/-- Invocations of the batch-size-aware outcome-presentation handler
(`handleBatchUploaded` / `handleSingleUploaded`). -/
def Ev.isOutcomeCall : Ev → Bool
  | .callBatchUploaded _ _ => true
  | .callSingleUploaded _ _ => true
  | _ => false

/-- Notification displays. -/
def Ev.isNotify : Ev → Bool
  | .notify _ _ => true
  | _ => false

/-- The synchronous phase of `files.map(...)` (lines 181–185), starting at
task index `i` with `k` tasks remaining.  Each `toUpload` runs synchronously:
it prepares its task and, unless `batchUploadMode === 'Sequence' && index > 0`
suspends it first, invokes the adapter's transfer. -/
def syncFrom (mode : BatchMode) : Nat → Nat → List Ev
  | _, 0 => []
  | i, k + 1 =>
    Ev.prep i ::
      ((if mode = BatchMode.Sequence ∧ 0 < i then [] else [Ev.transferStart i]) ++
        syncFrom mode (i + 1) k)

/-- The whole synchronous phase for an `n`-task batch. -/
def syncEvents (mode : BatchMode) (n : Nat) : List Ev :=
  syncFrom mode 0 n

/-- The asynchronous phase under `Sequence` mode, starting at task `i` with
`k` tasks remaining: task `i` settles; on a structured verdict task `i + 1`
resumes from its gate (invoking its transfer), while an adapter throw rejects
the whole remaining chain (every later task rethrows at
`await uploadQuence[index - 1]` without ever invoking its transfer). -/
def seqAsyncFrom (st : Nat → Option (Except String TaskOutcome)) :
    Nat → Nat → List Ev
  | _, 0 => []
  | i, k + 1 =>
    match st i with
    | none => []
    | some (.error _) =>
      (if 0 < i then [Ev.transferStart i] else []) ++ [Ev.transferSettle i]
    | some (.ok _) =>
      (if 0 < i then [Ev.transferStart i] else []) ++
        (Ev.transferSettle i :: seqAsyncFrom st (i + 1) k)

/-- The `successRes`, `failRes` arrays and the pending rejection under `Sequence` mode. -/
def seqOutFrom (st : Nat → Option (Except String TaskOutcome)) :
    Nat → Nat → List UploadedFileInfo × List UploadedFileInfo × Option String
  | _, 0 => ([], [], none)
  | i, k + 1 =>
    match st i with
    | none => ([], [], none)
    | some (.error e) => ([], [], some e)
    | some (.ok (.success s)) =>
      let r := seqOutFrom st (i + 1) k
      (s :: r.1, r.2.1, r.2.2)
    | some (.ok (.fail f)) =>
      let r := seqOutFrom st (i + 1) k
      (r.1, f :: r.2.1, r.2.2)

/-- Settlement events under `Parallel` mode, in schedule order. -/
def parAsync (st : Nat → Option (Except String TaskOutcome)) (sched : List Nat) :
    List Ev :=
  sched.filterMap (fun i => (st i).map (fun _ => Ev.transferSettle i))

/-- The `successRes` array under `Parallel` mode: pushes happen in settlement order. -/
def parSuccess (st : Nat → Option (Except String TaskOutcome)) (sched : List Nat) :
    List UploadedFileInfo :=
  sched.filterMap (fun i =>
    match st i with
    | some (.ok (.success s)) => some s
    | _ => none)

/-- The `failRes` array under `Parallel` mode. -/
def parFail (st : Nat → Option (Except String TaskOutcome)) (sched : List Nat) :
    List UploadedFileInfo :=
  sched.filterMap (fun i =>
    match st i with
    | some (.ok (.fail f)) => some f
    | _ => none)

/-- The rejection `Promise.all` reports under `Parallel` mode: the first
adapter throw in settlement order, if any. -/
def parFirstThrow (st : Nat → Option (Except String TaskOutcome)) (sched : List Nat) :
    Option String :=
  (sched.filterMap (fun i =>
    match st i with
    | some (.error e) => some e
    | _ => none)).head?

/-- The state of one dispatched batch after `await Promise.all(promises)`
would resume: its task-event trace, the two outcome arrays, and the pending
rejection (if some adapter threw). -/
structure BatchAcc where
  events : List Ev
  successRes : List UploadedFileInfo
  failRes : List UploadedFileInfo
  firstThrow : Option String
deriving Repr

/-- Dispatch of a whole batch (lines 143–187), parameterised by the
settlement schedule `sched` (used only under `Parallel` mode). -/
def runBatch (env : Env) (cfg : Configuration) (profileId : String)
    (uploader : Uploader) (opts : UploadOptions) (sched : List Nat) : BatchAcc :=
  let n := opts.files.length
  let st := stOpt env cfg profileId uploader opts
  match uploader.batchUploadMode with
  | .Parallel =>
    { events := syncEvents .Parallel n ++ parAsync st sched
      successRes := parSuccess st sched
      failRes := parFail st sched
      firstThrow := parFirstThrow st sched }
  | .Sequence =>
    let r := seqOutFrom st 0 n
    { events := syncEvents .Sequence n ++ seqAsyncFrom st 0 n
      successRes := r.1
      failRes := r.2.1
      firstThrow := r.2.2 }

/-- The `handleBatchUploaded` handler (lines 306–320). -/
def handleBatchUploaded (succ : Nat) (fail : Nat) : List Ev :=
  if fail = 0 then
    [Ev.notify "批量上传成功" ("总共" ++ toString succ ++ "个文件")]
  else if succ = 0 then
    [Ev.notify "批量上传失败" ("总共" ++ toString fail ++ "个文件")]
  else
    [Ev.notify "批量上传结束" ("成功" ++ toString succ ++ "个，失败" ++ toString fail ++ "个")]

/-- The `handleSingleUploaded` handler (lines 322–373).  With no success record it reads
`failFile.errorMessage`; when `failRes[0]` is `undefined` as well that line
throws, modelled by `Except.error` carrying the runtime's message. -/
def handleSingleUploaded (cfg : Configuration)
    (successFile : Option UploadedFileInfo) (failFile : Option UploadedFileInfo) :
    Except String (List Ev) :=
  match successFile with
  | some sf =>
    if cfg.urlType == "URL" ∨ cfg.urlType == "HTML" ∨ cfg.urlType == "Markdown" then
      let clipboardUrl : Option String :=
        if cfg.urlType == "URL" then sf.url
        else if cfg.urlType == "HTML" then
          some ("<img src=\"" ++ jsTemplate sf.url ++ "\" />")
        else
          some ("![" ++ jsTemplate sf.url ++ "](" ++ jsTemplate sf.url ++ ")")
      if cfg.autoCopy then
        .ok ((if cfg.autoRecover then [Ev.clipboardRead] else []) ++
          [Ev.clipboardWrite (jsOrStr clipboardUrl "")] ++
          (if cfg.showNotifaction then [Ev.notify "上传成功" "链接已自动复制到粘贴板"] else []) ++
          (if cfg.autoRecover then [Ev.autoRecoverScheduled] else []))
      else
        .ok (if cfg.showNotifaction then [Ev.notify "上传成功" (jsOrStr clipboardUrl "")] else [])
    else
      .ok []
  | none =>
    match failFile with
    | some ff => .ok [Ev.notify "上传失败" (jsOrStr ff.errorMessage "错误未捕获")]
    | none => .error "Cannot read properties of undefined (reading 'errorMessage')"

/-- The result of one `upload` call: `return false` (resolution failure),
`return successRes`, or falling into the `catch` block (which returns
`undefined`). -/
inductive UploadReturn
  | returnedFalse
  | returnedFiles (files : List UploadedFileInfo)
  | errorBranch
deriving DecidableEq, Repr

/-- Everything `upload` does after `await Promise.all(promises)` (lines
187–215): on a pending rejection, the `catch` block; otherwise the history
write, the IPC replies, and the batch-size-aware notification handler (whose
own throw also lands in the `catch` block). -/
def postEvents (env : Env) (cfg : Configuration) (opts : UploadOptions)
    (acc : BatchAcc) : List Ev × UploadReturn :=
  match acc.firstThrow with
  | some e =>
    ((if opts.isTest then [Ev.testReply false] else []) ++
        [Ev.notify "上传操作异常" e],
      UploadReturn.errorBranch)
  | none =>
    let evs1 : List Ev :=
      Ev.historyWrite (acc.failRes ++ acc.successRes) ::
        ((if env.winDestroyed then [] else [Ev.uploadedFilesReply]) ++
          (if opts.isFromFileManage then [Ev.fileManageReply] else []) ++
          (if opts.isTest then [Ev.testReply (0 < acc.successRes.length)] else []))
    if 1 < opts.files.length then
      (evs1 ++ Ev.callBatchUploaded acc.successRes.length acc.failRes.length ::
          handleBatchUploaded acc.successRes.length acc.failRes.length,
        UploadReturn.returnedFiles acc.successRes)
    else
      match handleSingleUploaded cfg acc.successRes.head? acc.failRes.head? with
      | .ok evs =>
        (evs1 ++ Ev.callSingleUploaded acc.successRes.head? acc.failRes.head? :: evs,
          UploadReturn.returnedFiles acc.successRes)
      | .error m =>
        (evs1 ++ Ev.callSingleUploaded acc.successRes.head? acc.failRes.head? ::
            ((if opts.isTest then [Ev.testReply false] else []) ++
              [Ev.notify "上传操作异常" m]),
          UploadReturn.errorBranch)

/-- The whole `upload` call (lines 99–216): profile resolution with its two
distinguishable not-found notifications, adapter lookup with its own
notification, adapter configuration, batch dispatch, and the settled-batch
processing. -/
def uploadRun (env : Env) (cfg : Configuration) (profiles : List UploaderProfile)
    (getUploaderByName : String → Option Uploader) (sched : List Nat)
    (opts : UploadOptions) : List Ev × UploadReturn :=
  match selectProfile opts profiles cfg.defaultUploaderProfileId with
  | none =>
    if strFalsy opts.customUploaderProfileId then
      if 0 < profiles.length then
        ([Ev.notify "上传操作异常" "请配置默认的上传器"], UploadReturn.returnedFalse)
      else
        ([Ev.notify "上传操作异常" "请添加上传器配置"], UploadReturn.returnedFalse)
    else
      ([Ev.notify "上传操作异常" "上传器配置不存在"], UploadReturn.returnedFalse)
  | some profile =>
    match getUploaderByName profile.uploaderName with
    | none =>
      ([Ev.notify "上传操作异常" ("没有找到" ++ profile.uploaderName ++ "上传器")],
        UploadReturn.returnedFalse)
    | some uploader =>
      let acc := runBatch env cfg profile.id uploader opts sched
      let post := postEvents env cfg opts acc
      (Ev.configureAdapter profile.uploaderOptions cfg.proxy :: (acc.events ++ post.1),
        post.2)

/-! ## Download streamer (lines 251–290) -/

/-- Events of one `download` call. -/
inductive DlEv
  | progress (name : String) (ratio : Rat)
  | done
  | errorReply (msg : String)
deriving DecidableEq, Repr

/-- Progress events. -/
def DlEv.isProgress : DlEv → Bool
  | .progress _ _ => true
  | _ => false

/-- Terminal signals: the payload-free completion reply or the error reply. -/
def DlEv.isTerminal : DlEv → Bool
  | .done => true
  | .errorReply _ => true
  | _ => false

/-- The per-chunk `data` handler (lines 263–269), starting from `cur` received
bytes: when `content-length` was declared, each chunk emits one progress event
with ratio `curLength / totalLength`. -/
def dlChunkEventsFrom (name : String) (total : Option Nat) (cur : Nat) :
    List Nat → List DlEv
  | [] => []
  | ch :: rest =>
    (match total with
      | some t => [DlEv.progress name (((cur + ch : Nat) : Rat) / (t : Rat))]
      | none => []) ++
      dlChunkEventsFrom name total (cur + ch) rest

/-- Running byte totals after each chunk. -/
def prefixSumsFrom (cur : Nat) : List Nat → List Nat
  | [] => []
  | ch :: rest => (cur + ch) :: prefixSumsFrom (cur + ch) rest

/-- How one `download` call's transfer went: a clean finish after the given
chunks, a writer error after the given chunks, or a request failure.  Error
messages are optional because `err.message || '下载失败'` treats a missing or
empty message as falsy. -/
inductive DownloadRun
  | success (chunks : List Nat)
  | writerError (chunks : List Nat) (msg : Option String)
  | requestError (msg : Option String)

/-- The event trace of one `download` call: per-chunk progress events, then
either the payload-free `file-download-reply` (only when `content-length` was
undefined, line 279) or the single error reply sent by the `catch` (line 288). -/
def downloadEvents (name : String) (total : Option Nat) (run : DownloadRun) :
    List DlEv :=
  match run with
  | .success chunks =>
    dlChunkEventsFrom name total 0 chunks ++
      (match total with
        | none => [DlEv.done]
        | some _ => [])
  | .writerError chunks msg =>
    dlChunkEventsFrom name total 0 chunks ++ [DlEv.errorReply (jsOrStr msg "下载失败")]
  | .requestError msg => [DlEv.errorReply (jsOrStr msg "下载失败")]

/-! ## Concrete instances used by counterexamples and witnesses -/

/-- Environment of the concrete examples: identity rename helper, constant
MIME lookup, deterministic fresh ids and timestamps, live window. -/
def exEnv : Env :=
  { getFileNameByFormat := fun n _ _ => n
    mimeLookup := fun _ => some "image/png"
    uuid := fun i => "uuid-" ++ toString i
    now := fun i => 1000 + i
    winDestroyed := false }

/-- A profile whose backend is registered in the example lookups. -/
def exProfile : UploaderProfile :=
  { id := "p1", uploaderName := "SomeBackend", uploaderOptions := [] }

/-- Settings whose default profile id is `exProfile`'s id. -/
def exCfg : Configuration := { defaultUploaderProfileId := some "p1" }

/-- A parallel adapter that throws an unstructured error on `a.png` and
succeeds on every other file. -/
def throwingUploader : Uploader :=
  { batchUploadMode := .Parallel
    upload := fun req =>
      if req.fileName == "a.png" then .error "boom"
      else .ok (.success { url := some "https://cdn/x" }) }

/-- A parallel adapter that always reports structured success. -/
def okParUploader : Uploader :=
  { batchUploadMode := .Parallel
    upload := fun _ => .ok (.success { url := some "https://cdn/x" }) }

/-- A sequential adapter that always reports structured success. -/
def okSeqUploader : Uploader :=
  { batchUploadMode := .Sequence
    upload := fun _ => .ok (.success { url := some "https://cdn/x" }) }

/-- A registry exposing the given adapter under the name `SomeBackend`. -/
def exLookup (u : Uploader) : String → Option Uploader :=
  fun s => if s == "SomeBackend" then some u else none

/-- A two-file batch. -/
def exTwoFiles : UploadOptions :=
  { files := [JsFile.pathFile "a.png", JsFile.pathFile "b.png"] }

/-- A single-file batch. -/
def exOneFile : UploadOptions := { files := [JsFile.pathFile "b.png"] }

/-- An empty batch. -/
def exNoFiles : UploadOptions := { files := [] }

/-- A test profile for the profile-selection counterexample. -/
def exTestProfile : UploaderProfile :=
  { id := "tp", uploaderName := "T", uploaderOptions := [] }

/-- A regular profile whose id matches the explicit id below. -/
def exOtherProfile : UploaderProfile :=
  { id := "a", uploaderName := "A", uploaderOptions := [] }

/-- A request supplying a test profile but not setting `isTest`, together with
an explicit id that matches `exOtherProfile`. -/
def exC6Opts : UploadOptions :=
  { files := []
    customUploaderProfileId := some "a"
    testProfile := some exTestProfile
    isTest := false }

/-- A request with an explicit id that matches no profile. -/
def exBadCustomOpts : UploadOptions :=
  { files := [JsFile.pathFile "a.png"], customUploaderProfileId := some "zzz" }

/-! ## Helper lemmas -/

theorem dlChunkEventsFrom_some (name : String) (t : Nat) (l : List Nat) :
    ∀ cur : Nat, dlChunkEventsFrom name (some t) cur l =
      (prefixSumsFrom cur l).map (fun c : Nat => DlEv.progress name ((c : Rat) / (t : Rat))) := by
  induction l with
  | nil => intro cur; rfl
  | cons ch rest ih =>
    intro cur
    simp [dlChunkEventsFrom, prefixSumsFrom, ih (cur + ch)]

theorem prefixSumsFrom_length (l : List Nat) :
    ∀ cur : Nat, (prefixSumsFrom cur l).length = l.length := by
  induction l with
  | nil => intro cur; rfl
  | cons ch rest ih => intro cur; simp [prefixSumsFrom, ih (cur + ch)]

theorem dlChunkEventsFrom_none (name : String) (l : List Nat) :
    ∀ cur : Nat, dlChunkEventsFrom name none cur l = [] := by
  induction l with
  | nil => intro cur; rfl
  | cons ch rest ih => intro cur; simp [dlChunkEventsFrom, ih (cur + ch)]

theorem dlChunkEventsFrom_no_terminal (name : String) (total : Option Nat) (l : List Nat) :
    ∀ cur : Nat, ∀ e ∈ dlChunkEventsFrom name total cur l, DlEv.isTerminal e = false := by
  induction l with
  | nil => intro cur e he; simp [dlChunkEventsFrom] at he
  | cons ch rest ih =>
    intro cur e he
    cases total with
    | none => simp [dlChunkEventsFrom] at he; exact ih (cur + ch) e he
    | some t =>
      simp [dlChunkEventsFrom] at he
      rcases he with he | he
      · simp [he, DlEv.isTerminal]
      · exact ih (cur + ch) e he

theorem syncFrom_mem_iff (mode : BatchMode) (k : Nat) :
    ∀ a e, e ∈ syncFrom mode a k ↔
      ((∃ j, a ≤ j ∧ j < a + k ∧ e = Ev.prep j) ∨
        (∃ j, a ≤ j ∧ j < a + k ∧ ¬(mode = BatchMode.Sequence ∧ 0 < j) ∧
          e = Ev.transferStart j)) := by
  induction k with
  | zero =>
    intro a e
    constructor
    · intro h
      simp [syncFrom] at h
    · rintro (⟨j, h1, h2, rfl⟩ | ⟨j, h1, h2, h3, rfl⟩) <;> omega
  | succ k ih =>
    intro a e
    constructor
    · intro h
      simp only [syncFrom, List.mem_cons, List.mem_append] at h
      rcases h with rfl | h | h
      · exact Or.inl ⟨a, Nat.le_refl a, by omega, rfl⟩
      · by_cases hc : mode = BatchMode.Sequence ∧ 0 < a
        · simp [hc] at h
        · simp only [if_neg hc, List.mem_singleton] at h
          exact Or.inr ⟨a, Nat.le_refl a, by omega, hc, h⟩
      · rcases (ih (a + 1) e).1 h with ⟨j, h1, h2, rfl⟩ | ⟨j, h1, h2, h3, rfl⟩
        · exact Or.inl ⟨j, by omega, by omega, rfl⟩
        · exact Or.inr ⟨j, by omega, by omega, h3, rfl⟩
    · rintro (⟨j, h1, h2, rfl⟩ | ⟨j, h1, h2, h3, rfl⟩)
      · rcases Nat.eq_or_lt_of_le h1 with rfl | hlt
        · simp [syncFrom]
        · simp only [syncFrom, List.mem_cons, List.mem_append]
          exact Or.inr (Or.inr ((ih (a + 1) _).2 (Or.inl ⟨j, by omega, by omega, rfl⟩)))
      · rcases Nat.eq_or_lt_of_le h1 with rfl | hlt
        · simp [syncFrom, h3]
        · simp only [syncFrom, List.mem_cons, List.mem_append]
          exact Or.inr (Or.inr ((ih (a + 1) _).2
            (Or.inr ⟨j, by omega, by omega, h3, rfl⟩)))

theorem syncFrom_prep_prep (mode : BatchMode) (k : Nat) :
    ∀ a i j, a ≤ i → i < j → j < a + k →
      [Ev.prep i, Ev.prep j].Sublist (syncFrom mode a k) := by
  induction k with
  | zero =>
    intro a i j h1 h2 h3
    omega
  | succ k ih =>
    intro a i j h1 h2 h3
    rcases Nat.eq_or_lt_of_le h1 with rfl | hlt
    · have hj : Ev.prep j ∈ syncFrom mode (a + 1) k :=
        (syncFrom_mem_iff mode k (a + 1) _).2 (Or.inl ⟨j, by omega, by omega, rfl⟩)
      simp only [syncFrom]
      exact List.Sublist.cons₂ _
        ((List.singleton_sublist.mpr hj).trans (List.sublist_append_right _ _))
    · have := ih (a + 1) i j hlt h2 (by omega)
      simp only [syncFrom]
      exact List.Sublist.cons _ (this.trans (List.sublist_append_right _ _))

theorem syncFrom_prep_start (mode : BatchMode) (k : Nat) :
    ∀ a i, a ≤ i → i < a + k → ¬(mode = BatchMode.Sequence ∧ 0 < i) →
      [Ev.prep i, Ev.transferStart i].Sublist (syncFrom mode a k) := by
  induction k with
  | zero =>
    intro a i h1 h2 h3
    omega
  | succ k ih =>
    intro a i h1 h2 h3
    rcases Nat.eq_or_lt_of_le h1 with rfl | hlt
    · simp only [syncFrom, if_neg h3]
      exact List.Sublist.cons₂ _ (List.sublist_append_left _ _)
    · have := ih (a + 1) i hlt (by omega) h3
      simp only [syncFrom]
      exact List.Sublist.cons _ (this.trans (List.sublist_append_right _ _))

theorem seqAsyncFrom_mem_shape (st : Nat → Option (Except String TaskOutcome)) (k : Nat) :
    ∀ a e, e ∈ seqAsyncFrom st a k →
      ∃ j, a ≤ j ∧ j < a + k ∧
        (e = Ev.transferSettle j ∨ (0 < j ∧ e = Ev.transferStart j)) := by
  induction k with
  | zero =>
    intro a e h
    simp [seqAsyncFrom] at h
  | succ k ih =>
    intro a e h
    simp only [seqAsyncFrom] at h
    cases hst : st a with
    | none =>
      rw [hst] at h
      simp at h
    | some r =>
      cases r with
      | error m =>
        rw [hst] at h
        rcases List.mem_append.mp h with h1 | h1
        · by_cases hc : 0 < a
          · simp [hc] at h1
            exact ⟨a, Nat.le_refl a, by omega, Or.inr ⟨hc, h1⟩⟩
          · simp [hc] at h1
        · simp only [List.mem_singleton] at h1
          exact ⟨a, Nat.le_refl a, by omega, Or.inl h1⟩
      | ok o =>
        rw [hst] at h
        rcases List.mem_append.mp h with h1 | h1
        · by_cases hc : 0 < a
          · simp [hc] at h1
            exact ⟨a, Nat.le_refl a, by omega, Or.inr ⟨hc, h1⟩⟩
          · simp [hc] at h1
        · rcases List.mem_cons.mp h1 with rfl | h2
          · exact ⟨a, Nat.le_refl a, by omega, Or.inl rfl⟩
          · rcases ih (a + 1) e h2 with ⟨j, hj1, hj2, hj3⟩
            exact ⟨j, by omega, by omega, hj3⟩

theorem seqAsyncFrom_start_bounds (st : Nat → Option (Except String TaskOutcome))
    (k : Nat) (a j : Nat) (h : Ev.transferStart j ∈ seqAsyncFrom st a k) :
    a ≤ j ∧ j < a + k ∧ 0 < j := by
  rcases seqAsyncFrom_mem_shape st k a _ h with ⟨m, h1, h2, h3 | ⟨h3, h4⟩⟩
  · simp at h3
  · cases h4
    exact ⟨h1, h2, h3⟩

theorem seqAsyncFrom_settle_start (st : Nat → Option (Except String TaskOutcome))
    (k : Nat) :
    ∀ a j, a < j → Ev.transferStart j ∈ seqAsyncFrom st a k →
      [Ev.transferSettle (j - 1), Ev.transferStart j].Sublist (seqAsyncFrom st a k) := by
  induction k with
  | zero =>
    intro a j h1 h2
    simp [seqAsyncFrom] at h2
  | succ k ih =>
    intro a j h1 h2
    cases hst : st a with
    | none =>
      simp only [seqAsyncFrom, hst] at h2
      simp at h2
    | some r =>
      cases r with
      | error m =>
        simp only [seqAsyncFrom, hst] at h2
        rcases List.mem_append.mp h2 with h3 | h3
        · by_cases hc : 0 < a
          · simp [hc] at h3
            omega
          · simp [hc] at h3
        · simp at h3
      | ok o =>
        simp only [seqAsyncFrom, hst] at h2 ⊢
        rcases List.mem_append.mp h2 with h3 | h3
        · by_cases hc : 0 < a
          · simp [hc] at h3
            omega
          · simp [hc] at h3
        · rcases List.mem_cons.mp h3 with h4 | h4
          · simp at h4
          · rcases Nat.lt_or_ge (a + 1) j with hj | hj
            · have hrec := ih (a + 1) j hj h4
              exact List.Sublist.trans (List.Sublist.cons _ hrec)
                (List.sublist_append_right _ _)
            · have hje : j = a + 1 := by
                rcases seqAsyncFrom_start_bounds st k (a + 1) j h4 with ⟨hb, _, _⟩
                omega
              subst hje
              have hmem : [Ev.transferStart (a + 1)].Sublist
                  (seqAsyncFrom st (a + 1) k) := List.singleton_sublist.mpr h4
              have hcons : [Ev.transferSettle a, Ev.transferStart (a + 1)].Sublist
                  (Ev.transferSettle a :: seqAsyncFrom st (a + 1) k) :=
                List.Sublist.cons₂ _ hmem
              have hgoal : [Ev.transferSettle (a + 1 - 1),
                  Ev.transferStart (a + 1)].Sublist
                    (Ev.transferSettle a :: seqAsyncFrom st (a + 1) k) := by
                simpa using hcons
              exact List.Sublist.trans hgoal (List.sublist_append_right _ _)

theorem seqAsyncFrom_start_start (st : Nat → Option (Except String TaskOutcome))
    (k : Nat) :
    ∀ a i j, a ≤ i → 0 < i → i < j → Ev.transferStart j ∈ seqAsyncFrom st a k →
      [Ev.transferStart i, Ev.transferStart j].Sublist (seqAsyncFrom st a k) := by
  induction k with
  | zero =>
    intro a i j h1 h2 h3 h4
    simp [seqAsyncFrom] at h4
  | succ k ih =>
    intro a i j h1 h2 h3 h4
    cases hst : st a with
    | none =>
      simp only [seqAsyncFrom, hst] at h4
      simp at h4
    | some r =>
      cases r with
      | error m =>
        simp only [seqAsyncFrom, hst] at h4
        rcases List.mem_append.mp h4 with h5 | h5
        · by_cases hc : 0 < a
          · simp [hc] at h5
            omega
          · simp [hc] at h5
        · simp at h5
      | ok o =>
        simp only [seqAsyncFrom, hst] at h4 ⊢
        rcases List.mem_append.mp h4 with h5 | h5
        · by_cases hc : 0 < a
          · simp [hc] at h5
            omega
          · simp [hc] at h5
        · rcases List.mem_cons.mp h5 with h6 | h6
          · simp at h6
          · rcases Nat.eq_or_lt_of_le h1 with rfl | hlt
            · have hjmem : [Ev.transferStart j].Sublist (seqAsyncFrom st (a + 1) k) :=
                List.singleton_sublist.mpr h6
              simp only [if_pos h2]
              exact List.Sublist.cons₂ _ (List.Sublist.cons _ hjmem)
            · have hrec := ih (a + 1) i j hlt h2 h3 h6
              exact List.Sublist.trans (List.Sublist.cons _ hrec)
                (List.sublist_append_right _ _)

theorem seqAsyncFrom_settle_mem (st : Nat → Option (Except String TaskOutcome))
    (k : Nat) :
    ∀ a, (∀ m, a ≤ m → m < a + k → structuredAt (st m) = true) →
      ∀ j, a ≤ j → j < a + k → Ev.transferSettle j ∈ seqAsyncFrom st a k := by
  induction k with
  | zero =>
    intro a h j h1 h2
    omega
  | succ k ih =>
    intro a h j h1 h2
    have ha := h a (Nat.le_refl a) (by omega)
    cases hst : st a with
    | none => rw [hst] at ha; simp [structuredAt] at ha
    | some r =>
      cases r with
      | error m => rw [hst] at ha; simp [structuredAt] at ha
      | ok o =>
        simp only [seqAsyncFrom, hst]
        rcases Nat.eq_or_lt_of_le h1 with rfl | hlt
        · simp
        · have hrec := ih (a + 1) (fun m hm1 hm2 => h m (by omega) (by omega)) j hlt
            (by omega)
          simp [hrec]

theorem seqOutFrom_throw_none (st : Nat → Option (Except String TaskOutcome))
    (k : Nat) :
    ∀ a, (∀ m, a ≤ m → m < a + k → structuredAt (st m) = true) →
      (seqOutFrom st a k).2.2 = none := by
  induction k with
  | zero =>
    intro a h
    rfl
  | succ k ih =>
    intro a h
    have ha := h a (Nat.le_refl a) (by omega)
    cases hst : st a with
    | none => rw [hst] at ha; simp [structuredAt] at ha
    | some r =>
      cases r with
      | error m => rw [hst] at ha; simp [structuredAt] at ha
      | ok o =>
        have hrec := ih (a + 1) (fun m hm1 hm2 => h m (by omega) (by omega))
        cases o <;> simp [seqOutFrom, hst, hrec]

theorem parAsync_mem_shape (st : Nat → Option (Except String TaskOutcome))
    (sched : List Nat) (e : Ev) (h : e ∈ parAsync st sched) :
    ∃ j, e = Ev.transferSettle j := by
  rcases List.mem_filterMap.mp h with ⟨i, _, hmap⟩
  cases hst : st i <;> rw [hst] at hmap <;> simp at hmap
  exact ⟨i, hmap.symm⟩

theorem parAsync_settle_mem (st : Nat → Option (Except String TaskOutcome))
    (sched : List Nat) (i : Nat) (r : Except String TaskOutcome)
    (hi : i ∈ sched) (hst : st i = some r) :
    Ev.transferSettle i ∈ parAsync st sched :=
  List.mem_filterMap.mpr ⟨i, hi, by simp [hst]⟩

theorem parFirstThrow_none (st : Nat → Option (Except String TaskOutcome))
    (sched : List Nat) (h : ∀ i ∈ sched, structuredAt (st i) = true) :
    parFirstThrow st sched = none := by
  unfold parFirstThrow
  have : (sched.filterMap (fun i =>
      match st i with
      | some (.error e) => some e
      | _ => none)) = [] := by
    rw [List.filterMap_eq_nil_iff]
    intro i hi
    have := h i hi
    cases hst : st i with
    | none => rfl
    | some r =>
      cases r with
      | error m => rw [hst] at this; simp [structuredAt] at this
      | ok o => rfl
  rw [this]
  rfl

theorem parCounts (st : Nat → Option (Except String TaskOutcome)) (sched : List Nat)
    (h : ∀ i ∈ sched, structuredAt (st i) = true) :
    (parSuccess st sched).length + (parFail st sched).length = sched.length := by
  induction sched with
  | nil => rfl
  | cons i rest ih =>
    have hi := h i (List.mem_cons_self i rest)
    have hrest := ih (fun j hj => h j (List.mem_cons_of_mem i hj))
    cases hst : st i with
    | none => rw [hst] at hi; simp [structuredAt] at hi
    | some r =>
      cases r with
      | error m => rw [hst] at hi; simp [structuredAt] at hi
      | ok o =>
        cases o with
        | success s =>
          simp only [parSuccess, parFail, List.filterMap_cons, hst] at hrest ⊢
          simp only [List.length_cons]
          omega
        | fail f =>
          simp only [parSuccess, parFail, List.filterMap_cons, hst] at hrest ⊢
          simp only [List.length_cons]
          omega

theorem parIds (st : Nat → Option (Except String TaskOutcome)) (sched : List Nat)
    (h : ∀ i ∈ sched, structuredAt (st i) = true) :
    ((parSuccess st sched).map (fun r => r.id) ++
        (parFail st sched).map (fun r => r.id)).Perm
      (sched.map (fun i => taskRecordId (st i))) := by
  induction sched with
  | nil => simp [parSuccess, parFail]
  | cons i rest ih =>
    have hi := h i (List.mem_cons_self i rest)
    have hrest := ih (fun j hj => h j (List.mem_cons_of_mem i hj))
    cases hst : st i with
    | none => rw [hst] at hi; simp [structuredAt] at hi
    | some r =>
      cases r with
      | error m => rw [hst] at hi; simp [structuredAt] at hi
      | ok o =>
        cases o with
        | success s =>
          simp only [parSuccess, parFail, List.filterMap_cons, hst, List.map_cons,
            List.cons_append]
          rw [show taskRecordId (some (Except.ok (TaskOutcome.success s))) = s.id from rfl]
          exact List.Perm.cons _ hrest
        | fail f =>
          simp only [parSuccess, parFail, List.filterMap_cons, hst, List.map_cons,
            List.cons_append]
          rw [show taskRecordId (some (Except.ok (TaskOutcome.fail f))) = f.id from rfl]
          exact List.Perm.trans List.perm_middle (List.Perm.cons _ hrest)

theorem taskEv_props (e : Ev) (h : Ev.isTaskEv e = true) :
    Ev.isHistory e = false ∧ Ev.isOutcomeCall e = false := by
  cases e <;> simp_all [Ev.isTaskEv, Ev.isHistory, Ev.isOutcomeCall]

theorem stOpt_id (env : Env) (cfg : Configuration) (pid : String) (u : Uploader)
    (opts : UploadOptions) (i : Nat) (h : i < opts.files.length)
    (hs : structuredAt (stOpt env cfg pid u opts i) = true) :
    taskRecordId (stOpt env cfg pid u opts i) = some (env.uuid i) := by
  have he : opts.files[i]? = some (opts.files[i]) := List.getElem?_eq_getElem h
  rw [stOpt, he] at hs ⊢
  cases hr : u.upload (mkRequest env cfg opts (opts.files[i])) with
  | error e => simp [settleTask, hr, structuredAt] at hs
  | ok r =>
    cases r with
    | success d =>
      simp [settleTask, hr, taskRecordId, outcomeInfo, mergeData, mkBaseInfo]
    | failure desc =>
      simp [settleTask, hr, taskRecordId, outcomeInfo, mkBaseInfo]

theorem handleBatchUploaded_admin (s f : Nat) :
    (handleBatchUploaded s f).countP Ev.isHistory = 0 ∧
    (handleBatchUploaded s f).countP Ev.isOutcomeCall = 0 ∧
    ∀ e ∈ handleBatchUploaded s f, Ev.isSettle e = false ∧ Ev.isTaskEv e = false := by
  unfold handleBatchUploaded
  split_ifs <;>
    simp [List.countP_cons, Ev.isHistory, Ev.isOutcomeCall, Ev.isSettle, Ev.isTaskEv]

theorem handleSingleUploaded_shape (cfg : Configuration)
    (a b : Option UploadedFileInfo) (evs : List Ev)
    (h : handleSingleUploaded cfg a b = Except.ok evs) :
    ∀ e ∈ evs, Ev.isTaskEv e = false ∧ Ev.isHistory e = false ∧
      Ev.isOutcomeCall e = false ∧ Ev.isSettle e = false := by
  cases a with
  | some sf =>
    simp only [handleSingleUploaded] at h
    split_ifs at h <;>
      (injection h with h; subst h;
        simp [List.forall_mem_cons, List.forall_mem_append, Ev.isTaskEv, Ev.isHistory,
          Ev.isOutcomeCall, Ev.isSettle])
  | none =>
    cases b with
    | some ff =>
      simp only [handleSingleUploaded] at h
      injection h with h
      subst h
      simp [Ev.isTaskEv, Ev.isHistory, Ev.isOutcomeCall, Ev.isSettle]
    | none =>
      simp [handleSingleUploaded] at h

theorem postEvents_no_task (env : Env) (cfg : Configuration) (opts : UploadOptions)
    (acc : BatchAcc) :
    ∀ e ∈ (postEvents env cfg opts acc).1, Ev.isTaskEv e = false := by
  cases hft : acc.firstThrow with
  | some m =>
    simp only [postEvents, hft]
    cases opts.isTest <;>
      simp [List.forall_mem_append, List.forall_mem_cons, Ev.isTaskEv]
  | none =>
    simp only [postEvents, hft]
    by_cases hlen : 1 < opts.files.length
    · rw [if_pos hlen]
      cases env.winDestroyed <;> cases opts.isFromFileManage <;> cases opts.isTest <;>
          simp [List.forall_mem_append, List.forall_mem_cons, Ev.isTaskEv,
            handleBatchUploaded] <;>
        split_ifs <;> simp [Ev.isTaskEv]
    · rw [if_neg hlen]
      cases hh : handleSingleUploaded cfg acc.successRes.head? acc.failRes.head? with
      | ok evs =>
        have hsh : ∀ e ∈ evs, Ev.isTaskEv e = false :=
          fun e he => (handleSingleUploaded_shape cfg _ _ evs hh e he).1
        cases env.winDestroyed <;> cases opts.isFromFileManage <;> cases opts.isTest <;>
            simp [List.forall_mem_append, List.forall_mem_cons, Ev.isTaskEv] <;>
          exact fun e he => hsh e he
      | error m =>
        cases env.winDestroyed <;> cases opts.isFromFileManage <;> cases opts.isTest <;>
          simp [List.forall_mem_append, List.forall_mem_cons, Ev.isTaskEv]

theorem postEvents_none_decomp (env : Env) (cfg : Configuration) (opts : UploadOptions)
    (acc : BatchAcc) (hft : acc.firstThrow = none) :
    ∃ t, (postEvents env cfg opts acc).1 =
        Ev.historyWrite (acc.failRes ++ acc.successRes) :: t ∧
      t.countP Ev.isHistory = 0 ∧
      t.countP Ev.isOutcomeCall = 1 ∧
      ∀ e ∈ t, Ev.isSettle e = false := by
  simp only [postEvents, hft]
  by_cases hlen : 1 < opts.files.length
  · rw [if_pos hlen]
    have hhb := handleBatchUploaded_admin acc.successRes.length acc.failRes.length
    have hhbs : ∀ e ∈ handleBatchUploaded acc.successRes.length acc.failRes.length,
        Ev.isSettle e = false := fun e he => (hhb.2.2 e he).1
    refine ⟨((if env.winDestroyed then [] else [Ev.uploadedFilesReply]) ++
        (if opts.isFromFileManage then [Ev.fileManageReply] else []) ++
        (if opts.isTest then [Ev.testReply (0 < acc.successRes.length)] else [])) ++
        (Ev.callBatchUploaded acc.successRes.length acc.failRes.length ::
          handleBatchUploaded acc.successRes.length acc.failRes.length),
      by simp, ?_, ?_, ?_⟩
    · cases env.winDestroyed <;> cases opts.isFromFileManage <;> cases opts.isTest <;>
        simp [List.countP_append, List.countP_cons, Ev.isHistory, hhb.1]
    · cases env.winDestroyed <;> cases opts.isFromFileManage <;> cases opts.isTest <;>
        simp [List.countP_append, List.countP_cons, Ev.isOutcomeCall, hhb.2.1]
    · cases env.winDestroyed <;> cases opts.isFromFileManage <;> cases opts.isTest <;>
          simp [List.forall_mem_append, List.forall_mem_cons, Ev.isSettle] <;>
        exact fun e he => hhbs e he
  · rw [if_neg hlen]
    cases hh : handleSingleUploaded cfg acc.successRes.head? acc.failRes.head? with
    | ok evs =>
      have hsh := handleSingleUploaded_shape cfg _ _ evs hh
      have hsh2 : ∀ e ∈ evs, Ev.isSettle e = false := fun e he => (hsh e he).2.2.2
      have hsh3 : (evs.countP Ev.isHistory = 0) := by
        refine List.countP_eq_zero.mpr (fun e he => ?_)
        simp [(hsh e he).2.1]
      have hsh4 : (evs.countP Ev.isOutcomeCall = 0) := by
        refine List.countP_eq_zero.mpr (fun e he => ?_)
        simp [(hsh e he).2.2.1]
      refine ⟨((if env.winDestroyed then [] else [Ev.uploadedFilesReply]) ++
          (if opts.isFromFileManage then [Ev.fileManageReply] else []) ++
          (if opts.isTest then [Ev.testReply (0 < acc.successRes.length)] else [])) ++
          (Ev.callSingleUploaded acc.successRes.head? acc.failRes.head? :: evs),
        by simp, ?_, ?_, ?_⟩
      · cases env.winDestroyed <;> cases opts.isFromFileManage <;> cases opts.isTest <;>
          simp [List.countP_append, List.countP_cons, Ev.isHistory, hsh3]
      · cases env.winDestroyed <;> cases opts.isFromFileManage <;> cases opts.isTest <;>
          simp [List.countP_append, List.countP_cons, Ev.isOutcomeCall, hsh4]
      · cases env.winDestroyed <;> cases opts.isFromFileManage <;> cases opts.isTest <;>
            simp [List.forall_mem_append, List.forall_mem_cons, Ev.isSettle] <;>
          exact fun e he => hsh2 e he
    | error m =>
      refine ⟨((if env.winDestroyed then [] else [Ev.uploadedFilesReply]) ++
          (if opts.isFromFileManage then [Ev.fileManageReply] else []) ++
          (if opts.isTest then [Ev.testReply (0 < acc.successRes.length)] else [])) ++
          (Ev.callSingleUploaded acc.successRes.head? acc.failRes.head? ::
            ((if opts.isTest then [Ev.testReply false] else []) ++
              [Ev.notify "上传操作异常" m])),
        by simp, ?_, ?_, ?_⟩
      · cases env.winDestroyed <;> cases opts.isFromFileManage <;> cases opts.isTest <;>
          simp [List.countP_append, List.countP_cons, Ev.isHistory]
      · cases env.winDestroyed <;> cases opts.isFromFileManage <;> cases opts.isTest <;>
          simp [List.countP_append, List.countP_cons, Ev.isOutcomeCall]
      · cases env.winDestroyed <;> cases opts.isFromFileManage <;> cases opts.isTest <;>
          simp [List.forall_mem_append, List.forall_mem_cons, Ev.isSettle]

theorem runBatch_events_taskEv (env : Env) (cfg : Configuration) (pid : String)
    (u : Uploader) (opts : UploadOptions) (sched : List Nat) :
    ∀ e ∈ (runBatch env cfg pid u opts sched).events, Ev.isTaskEv e = true := by
  intro e he
  cases hm : u.batchUploadMode with
  | Parallel =>
    simp only [runBatch, hm, syncEvents] at he
    rcases List.mem_append.mp he with h | h
    · rcases (syncFrom_mem_iff _ _ 0 e).1 h with ⟨j, _, _, rfl⟩ | ⟨j, _, _, _, rfl⟩ <;> rfl
    · rcases parAsync_mem_shape _ _ e h with ⟨j, rfl⟩
      rfl
  | Sequence =>
    simp only [runBatch, hm, syncEvents] at he
    rcases List.mem_append.mp he with h | h
    · rcases (syncFrom_mem_iff _ _ 0 e).1 h with ⟨j, _, _, rfl⟩ | ⟨j, _, _, _, rfl⟩ <;> rfl
    · rcases seqAsyncFrom_mem_shape _ _ 0 e h with ⟨j, _, _, rfl | ⟨_, rfl⟩⟩ <;> rfl

theorem runBatch_no_throw (env : Env) (cfg : Configuration) (pid : String)
    (u : Uploader) (opts : UploadOptions) (sched : List Nat)
    (hok : ∀ i, i < opts.files.length → structuredAt (stOpt env cfg pid u opts i) = true)
    (hsched : u.batchUploadMode = BatchMode.Parallel →
      sched.Perm (List.range opts.files.length)) :
    (runBatch env cfg pid u opts sched).firstThrow = none := by
  cases hm : u.batchUploadMode with
  | Parallel =>
    simp only [runBatch, hm]
    refine parFirstThrow_none _ _ (fun i hi => ?_)
    have hmem : i ∈ List.range opts.files.length := ((hsched hm).mem_iff).1 hi
    exact hok i (List.mem_range.mp hmem)
  | Sequence =>
    simp only [runBatch, hm]
    exact seqOutFrom_throw_none _ _ 0 (fun m h1 h2 => hok m (by omega))

theorem runBatch_settle_mem (env : Env) (cfg : Configuration) (pid : String)
    (u : Uploader) (opts : UploadOptions) (sched : List Nat)
    (hok : ∀ i, i < opts.files.length → structuredAt (stOpt env cfg pid u opts i) = true)
    (hsched : u.batchUploadMode = BatchMode.Parallel →
      sched.Perm (List.range opts.files.length))
    (j : Nat) (hj : j < opts.files.length) :
    Ev.transferSettle j ∈ (runBatch env cfg pid u opts sched).events := by
  cases hm : u.batchUploadMode with
  | Parallel =>
    simp only [runBatch, hm, syncEvents]
    refine List.mem_append.mpr (Or.inr ?_)
    have hjm : j ∈ sched := ((hsched hm).mem_iff).2 (List.mem_range.mpr hj)
    have hs := hok j hj
    cases hst : stOpt env cfg pid u opts j with
    | none => rw [hst] at hs; simp [structuredAt] at hs
    | some r => exact parAsync_settle_mem _ _ j r hjm hst
  | Sequence =>
    simp only [runBatch, hm, syncEvents]
    exact List.mem_append.mpr (Or.inr (seqAsyncFrom_settle_mem _ _ 0
      (fun m h1 h2 => hok m (by omega)) j (Nat.zero_le j) (by omega)))

theorem uploadRun_resolved (env : Env) (cfg : Configuration)
    (profiles : List UploaderProfile) (getU : String → Option Uploader)
    (sched : List Nat) (opts : UploadOptions) (p : UploaderProfile) (u : Uploader)
    (hp : selectProfile opts profiles cfg.defaultUploaderProfileId = some p)
    (hu : getU p.uploaderName = some u) :
    uploadRun env cfg profiles getU sched opts =
      (Ev.configureAdapter p.uploaderOptions cfg.proxy ::
          ((runBatch env cfg p.id u opts sched).events ++
            (postEvents env cfg opts (runBatch env cfg p.id u opts sched)).1),
        (postEvents env cfg opts (runBatch env cfg p.id u opts sched)).2) := by
  simp [uploadRun, hp, hu]

/-! ## Claim theorems -/

/-- C6 fails on the code as stated: `upload` gates the test profile on the
`isTest` flag (line 109), not on a test profile being supplied, so a request
that supplies a test profile without `isTest` ignores it and resolves the
explicit id instead. -/
theorem C6_counterexample :
    exC6Opts.testProfile = some exTestProfile ∧
    selectProfile exC6Opts [exOtherProfile] (some "d") = some exOtherProfile ∧
    selectProfile exC6Opts [exOtherProfile] (some "d") ≠ some exTestProfile := by
  decide

/-- C6 amended: profile selection is gated on the request's `isTest` flag —
when it is set the (possibly absent) supplied test profile is used regardless
of the explicit and default ids; otherwise a truthy explicit id selects the
profile with that id, else the configured default id is looked up, and with
neither configured no profile is selected.  A test profile supplied without
`isTest` is ignored. -/
theorem C6_profile_selection (opts : UploadOptions) (profiles : List UploaderProfile)
    (dflt : Option String) :
    (opts.isTest = true → selectProfile opts profiles dflt = opts.testProfile) ∧
    (opts.isTest = false → ∀ s : String, opts.customUploaderProfileId = some s → s ≠ "" →
      selectProfile opts profiles dflt = profiles.find? (fun p => p.id == s)) ∧
    (opts.isTest = false → strFalsy opts.customUploaderProfileId = true →
      ∀ d : String, dflt = some d →
      selectProfile opts profiles dflt = profiles.find? (fun p => p.id == d)) ∧
    (opts.isTest = false → strFalsy opts.customUploaderProfileId = true → dflt = none →
      selectProfile opts profiles dflt = none) := by
  refine ⟨fun h1 => ?_, fun h1 s h2 h3 => ?_, fun h1 h2 d h3 => ?_, fun h1 h2 h3 => ?_⟩
  · simp [selectProfile, h1]
  · have : strFalsy (some s) = false := by
      simp [strFalsy, h3]
    simp [selectProfile, h1, jsOr, h2, this]
  · simp [selectProfile, h1, jsOr, h2, h3]
  · simp [selectProfile, h1, jsOr, h2, h3]

/-- Witness for the amended C6 at a concrete test request. -/
theorem C6_witness :
    selectProfile { files := [], isTest := true, testProfile := some exTestProfile }
      [exOtherProfile] (some "d") = some exTestProfile :=
  (C6_profile_selection
    { files := [], isTest := true, testProfile := some exTestProfile }
    [exOtherProfile] (some "d")).1 rfl

/-- C8: when the response declares a total size, every received chunk emits
one progress event whose ratio is bytesReceived / totalBytes, no payload-free
done reply is emitted, and the 1000-byte download received in four 250-byte
chunks emits exactly the ratios 0.25, 0.5, 0.75, 1.0. -/
theorem C8_known_size_progress (name : String) (t : Nat) (chunks : List Nat) :
    downloadEvents name (some t) (DownloadRun.success chunks) =
      (prefixSumsFrom 0 chunks).map (fun c : Nat => DlEv.progress name ((c : Rat) / (t : Rat))) ∧
    DlEv.done ∉ downloadEvents name (some t) (DownloadRun.success chunks) ∧
    (downloadEvents name (some t) (DownloadRun.success chunks)).length = chunks.length ∧
    downloadEvents "file" (some 1000) (DownloadRun.success [250, 250, 250, 250]) =
      [DlEv.progress "file" ((1 : Rat) / 4), DlEv.progress "file" ((1 : Rat) / 2),
        DlEv.progress "file" ((3 : Rat) / 4), DlEv.progress "file" 1] := by
  have h1 : downloadEvents name (some t) (DownloadRun.success chunks) =
      (prefixSumsFrom 0 chunks).map
        (fun c : Nat => DlEv.progress name ((c : Rat) / (t : Rat))) := by
    simp [downloadEvents, dlChunkEventsFrom_some]
  refine ⟨h1, ?_, ?_, ?_⟩
  · rw [h1]
    simp
  · rw [h1, List.length_map]
    exact prefixSumsFrom_length chunks 0
  · simp [downloadEvents, dlChunkEventsFrom]
    norm_num

/-- Witness for C8 at a concrete declared-size download. -/
theorem C8_witness :
    downloadEvents "f" (some 4) (DownloadRun.success [2, 2]) =
      [DlEv.progress "f" ((2 : Rat) / 4), DlEv.progress "f" ((4 : Rat) / 4)] ∧
    DlEv.done ∉ downloadEvents "f" (some 4) (DownloadRun.success [2, 2]) :=
  ⟨((C8_known_size_progress "f" 4 [2, 2]).1).trans (by simp [prefixSumsFrom]),
    (C8_known_size_progress "f" 4 [2, 2]).2.1⟩

/-- C9: with no declared total size no progress events are emitted and a clean
finish produces exactly the single payload-free done reply; in every case at
most one terminal signal (done or error reply) is produced per download call. -/
theorem C9_unknown_size_done (name : String) (run : DownloadRun) :
    (downloadEvents name none run).countP DlEv.isProgress = 0 ∧
    (∀ chunks, run = DownloadRun.success chunks →
      downloadEvents name none run = [DlEv.done]) ∧
    (∀ total : Option Nat, (downloadEvents name total run).countP DlEv.isTerminal ≤ 1) := by
  refine ⟨?_, ?_, ?_⟩
  · cases run <;>
      simp [downloadEvents, dlChunkEventsFrom_none, DlEv.isProgress, List.countP_cons]
  · intro chunks h
    subst h
    simp [downloadEvents, dlChunkEventsFrom_none]
  · intro total
    have hchunks : ∀ l : List Nat,
        (dlChunkEventsFrom name total 0 l).countP DlEv.isTerminal = 0 := by
      intro l
      exact List.countP_eq_zero.mpr (by
        intro e he
        simp [dlChunkEventsFrom_no_terminal name total l 0 e he])
    cases run with
    | success chunks =>
      cases total <;>
        simp [downloadEvents, List.countP_append, List.countP_cons, hchunks,
          DlEv.isTerminal]
    | writerError chunks msg =>
      simp [downloadEvents, List.countP_append, List.countP_cons, hchunks,
        DlEv.isTerminal]
    | requestError msg =>
      simp [downloadEvents, List.countP_cons, DlEv.isTerminal]

/-- Witness for C9 at a concrete unknown-size download. -/
theorem C9_witness :
    downloadEvents "n" none (DownloadRun.success [5]) = [DlEv.done] :=
  (C9_unknown_size_done "n" (DownloadRun.success [5])).2.1 [5] rfl

/-- C1 is violated by the code: on a two-file parallel batch whose adapter
throws an unstructured error on the first task, the sibling task does settle
with a computed success outcome (`successRes` has one entry), yet `Promise.all`
rejects, the call lands in the catch block, no history is written, no
outcome-presentation handler runs, and only the generic error notification is
shown — the fault is not converted into a task-local failure record. -/
theorem C1_adapter_fault_aborts_batch :
    (uploadRun exEnv exCfg [exProfile] (exLookup throwingUploader) [0, 1] exTwoFiles).2 =
      UploadReturn.errorBranch ∧
    (uploadRun exEnv exCfg [exProfile] (exLookup throwingUploader) [0, 1]
        exTwoFiles).1.countP Ev.isHistory = 0 ∧
    (uploadRun exEnv exCfg [exProfile] (exLookup throwingUploader) [0, 1]
        exTwoFiles).1.countP Ev.isOutcomeCall = 0 ∧
    Ev.transferSettle 1 ∈
      (uploadRun exEnv exCfg [exProfile] (exLookup throwingUploader) [0, 1] exTwoFiles).1 ∧
    (runBatch exEnv exCfg "p1" throwingUploader exTwoFiles [0, 1]).successRes.length = 1 ∧
    (runBatch exEnv exCfg "p1" throwingUploader exTwoFiles [0, 1]).failRes = [] ∧
    Ev.notify "上传操作异常" "boom" ∈
      (uploadRun exEnv exCfg [exProfile] (exLookup throwingUploader) [0, 1] exTwoFiles).1 := by
  decide

/-- C10: an empty batch against a resolvable profile and adapter settles with
zero outcomes, still writes the history exactly once with an empty record
list, and then the single-outcome notification path dereferences the missing
failure record, so the call ends in the catch block and does not return the
success list. -/
theorem C10_empty_batch (env : Env) (cfg : Configuration)
    (profiles : List UploaderProfile) (getU : String → Option Uploader)
    (sched : List Nat) (opts : UploadOptions) (p : UploaderProfile) (u : Uploader)
    (hp : selectProfile opts profiles cfg.defaultUploaderProfileId = some p)
    (hu : getU p.uploaderName = some u)
    (hfiles : opts.files = []) :
    (uploadRun env cfg profiles getU sched opts).2 = UploadReturn.errorBranch ∧
    (uploadRun env cfg profiles getU sched opts).1.countP Ev.isHistory = 1 ∧
    Ev.historyWrite [] ∈ (uploadRun env cfg profiles getU sched opts).1 ∧
    Ev.notify "上传操作异常" "Cannot read properties of undefined (reading 'errorMessage')" ∈
      (uploadRun env cfg profiles getU sched opts).1 := by
  have hst : ∀ i, stOpt env cfg p.id u opts i = none := by
    intro i
    simp [stOpt, hfiles]
  have hacc : runBatch env cfg p.id u opts sched =
      { events := [], successRes := [], failRes := [], firstThrow := none } := by
    cases hm : u.batchUploadMode with
    | Parallel =>
      simp [runBatch, hm, hfiles, syncEvents, syncFrom, parAsync, parSuccess, parFail,
        parFirstThrow, hst, List.filterMap_eq_nil_iff]
    | Sequence =>
      simp [runBatch, hm, hfiles, syncEvents, syncFrom, seqAsyncFrom, seqOutFrom]
  simp only [uploadRun, hp, hu, hacc, postEvents, handleSingleUploaded, hfiles]
  cases env.winDestroyed <;> cases opts.isFromFileManage <;> cases opts.isTest <;>
    simp [List.countP_cons, List.countP_append, Ev.isHistory]

/-- Witness for C10 at a concrete empty batch. -/
theorem C10_witness :
    (uploadRun exEnv exCfg [exProfile] (exLookup okParUploader) [] exNoFiles).2 =
      UploadReturn.errorBranch ∧
    (uploadRun exEnv exCfg [exProfile] (exLookup okParUploader) [] exNoFiles).1.countP
      Ev.isHistory = 1 ∧
    Ev.historyWrite [] ∈
      (uploadRun exEnv exCfg [exProfile] (exLookup okParUploader) [] exNoFiles).1 ∧
    Ev.notify "上传操作异常" "Cannot read properties of undefined (reading 'errorMessage')" ∈
      (uploadRun exEnv exCfg [exProfile] (exLookup okParUploader) [] exNoFiles).1 :=
  C10_empty_batch exEnv exCfg [exProfile] (exLookup okParUploader) [] exNoFiles
    exProfile okParUploader (by decide) rfl rfl

/-- C2: for a batch that resolves its profile and adapter and whose adapter
calls all return structured verdicts, the event trace of the `upload` call
contains exactly one history write and exactly one invocation of the
batch-size-aware outcome-presentation handler; the history write carries the
batch's record list, every task's settlement precedes it, the handler
invocation follows it, and no settlement occurs after it — the batch-level
side effects fire once, only after all tasks settle, never per-task. -/
theorem C2_side_effects_once (env : Env) (cfg : Configuration)
    (profiles : List UploaderProfile) (getU : String → Option Uploader)
    (sched : List Nat) (opts : UploadOptions) (p : UploaderProfile) (u : Uploader)
    (hp : selectProfile opts profiles cfg.defaultUploaderProfileId = some p)
    (hu : getU p.uploaderName = some u)
    (hok : ∀ i, i < opts.files.length → structuredAt (stOpt env cfg p.id u opts i) = true)
    (hsched : u.batchUploadMode = BatchMode.Parallel →
      sched.Perm (List.range opts.files.length)) :
    ∃ l1 l2,
      (uploadRun env cfg profiles getU sched opts).1 =
        l1 ++ Ev.historyWrite ((runBatch env cfg p.id u opts sched).failRes ++
          (runBatch env cfg p.id u opts sched).successRes) :: l2 ∧
      (uploadRun env cfg profiles getU sched opts).1.countP Ev.isHistory = 1 ∧
      (uploadRun env cfg profiles getU sched opts).1.countP Ev.isOutcomeCall = 1 ∧
      l1.countP Ev.isHistory = 0 ∧ l2.countP Ev.isHistory = 0 ∧
      l1.countP Ev.isOutcomeCall = 0 ∧ l2.countP Ev.isOutcomeCall = 1 ∧
      (∀ j, j < opts.files.length → Ev.transferSettle j ∈ l1) ∧
      (∀ e ∈ l2, Ev.isSettle e = false) := by
  have hft := runBatch_no_throw env cfg p.id u opts sched hok hsched
  rcases postEvents_none_decomp env cfg opts _ hft with ⟨t, hposteq, hth, htc, hts⟩
  have htask := runBatch_events_taskEv env cfg p.id u opts sched
  have hev_hist : (runBatch env cfg p.id u opts sched).events.countP Ev.isHistory = 0 :=
    List.countP_eq_zero.mpr (fun e he => by simp [(taskEv_props e (htask e he)).1])
  have hev_call : (runBatch env cfg p.id u opts sched).events.countP Ev.isOutcomeCall = 0 :=
    List.countP_eq_zero.mpr (fun e he => by simp [(taskEv_props e (htask e he)).2])
  have hEq : (uploadRun env cfg profiles getU sched opts).1 =
      (Ev.configureAdapter p.uploaderOptions cfg.proxy ::
        (runBatch env cfg p.id u opts sched).events) ++
        Ev.historyWrite ((runBatch env cfg p.id u opts sched).failRes ++
          (runBatch env cfg p.id u opts sched).successRes) :: t := by
    rw [uploadRun_resolved env cfg profiles getU sched opts p u hp hu]
    simp [hposteq]
  refine ⟨Ev.configureAdapter p.uploaderOptions cfg.proxy ::
      (runBatch env cfg p.id u opts sched).events, t, hEq, ?_, ?_, ?_, hth, ?_, htc,
      ?_, hts⟩
  · rw [hEq]
    simp [List.countP_append, List.countP_cons, Ev.isHistory, hev_hist, hth]
  · rw [hEq]
    simp [List.countP_append, List.countP_cons, Ev.isOutcomeCall, hev_call, htc]
  · simp [List.countP_cons, Ev.isHistory, hev_hist]
  · simp [List.countP_cons, Ev.isOutcomeCall, hev_call]
  · intro j hj
    exact List.mem_cons_of_mem _ (runBatch_settle_mem env cfg p.id u opts sched hok
      hsched j hj)

/-- Witness for C2 at a concrete one-file parallel batch. -/
theorem C2_witness :
    ∃ l1 l2,
      (uploadRun exEnv exCfg [exProfile] (exLookup okParUploader) [0] exOneFile).1 =
        l1 ++ Ev.historyWrite
          ((runBatch exEnv exCfg exProfile.id okParUploader exOneFile [0]).failRes ++
            (runBatch exEnv exCfg exProfile.id okParUploader exOneFile [0]).successRes) ::
          l2 ∧
      (uploadRun exEnv exCfg [exProfile] (exLookup okParUploader) [0]
        exOneFile).1.countP Ev.isHistory = 1 ∧
      (uploadRun exEnv exCfg [exProfile] (exLookup okParUploader) [0]
        exOneFile).1.countP Ev.isOutcomeCall = 1 ∧
      l1.countP Ev.isHistory = 0 ∧ l2.countP Ev.isHistory = 0 ∧
      l1.countP Ev.isOutcomeCall = 0 ∧ l2.countP Ev.isOutcomeCall = 1 ∧
      (∀ j, j < exOneFile.files.length → Ev.transferSettle j ∈ l1) ∧
      (∀ e ∈ l2, Ev.isSettle e = false) :=
  C2_side_effects_once exEnv exCfg [exProfile] (exLookup okParUploader) [0] exOneFile
    exProfile okParUploader (by decide) rfl (by decide) (fun _ => by decide)

/-- C3: under `Sequence` mode, for every task `j > 0` whose transfer is
invoked, the settlement of task `j - 1` precedes that invocation in the
event trace; transfer invocations occur in submission-index order; and
preparation is not gated — every task's preparation precedes every
settlement. -/
theorem C3_sequence_gating (env : Env) (cfg : Configuration)
    (profiles : List UploaderProfile) (getU : String → Option Uploader)
    (sched : List Nat) (opts : UploadOptions) (p : UploaderProfile) (u : Uploader)
    (hp : selectProfile opts profiles cfg.defaultUploaderProfileId = some p)
    (hu : getU p.uploaderName = some u)
    (hmode : u.batchUploadMode = BatchMode.Sequence) :
    (∀ j, 0 < j →
      Ev.transferStart j ∈ (uploadRun env cfg profiles getU sched opts).1 →
      [Ev.transferSettle (j - 1), Ev.transferStart j].Sublist
        (uploadRun env cfg profiles getU sched opts).1) ∧
    (∀ i j, i < j →
      Ev.transferStart j ∈ (uploadRun env cfg profiles getU sched opts).1 →
      [Ev.transferStart i, Ev.transferStart j].Sublist
        (uploadRun env cfg profiles getU sched opts).1) ∧
    (∀ i, i < opts.files.length → ∀ j,
      Ev.transferSettle j ∈ (uploadRun env cfg profiles getU sched opts).1 →
      [Ev.prep i, Ev.transferSettle j].Sublist
        (uploadRun env cfg profiles getU sched opts).1) := by
  have hEq := uploadRun_resolved env cfg profiles getU sched opts p u hp hu
  have hev : (runBatch env cfg p.id u opts sched).events =
      syncEvents BatchMode.Sequence opts.files.length ++
        seqAsyncFrom (stOpt env cfg p.id u opts) 0 opts.files.length := by
    simp [runBatch, hmode]
  have hpost := postEvents_no_task env cfg opts (runBatch env cfg p.id u opts sched)
  have hmem : ∀ e, Ev.isTaskEv e = true →
      e ∈ (uploadRun env cfg profiles getU sched opts).1 →
      e ∈ syncEvents BatchMode.Sequence opts.files.length ∨
        e ∈ seqAsyncFrom (stOpt env cfg p.id u opts) 0 opts.files.length := by
    intro e hte he
    rw [hEq] at he
    rcases List.mem_cons.mp he with rfl | he2
    · simp [Ev.isTaskEv] at hte
    · rcases List.mem_append.mp he2 with h | h
      · rw [hev] at h
        exact List.mem_append.mp h
      · rw [hpost e h] at hte
        cases hte
  have hext : ∀ l : List Ev,
      l.Sublist (syncEvents BatchMode.Sequence opts.files.length ++
        seqAsyncFrom (stOpt env cfg p.id u opts) 0 opts.files.length) →
      l.Sublist (uploadRun env cfg profiles getU sched opts).1 := by
    intro l hl
    rw [hEq]
    refine List.Sublist.cons _ ?_
    rw [hev]
    exact hl.trans (List.sublist_append_left _ _)
  refine ⟨?_, ?_, ?_⟩
  · intro j hjpos hjmem
    rcases hmem (Ev.transferStart j) rfl hjmem with h | h
    · rcases (syncFrom_mem_iff BatchMode.Sequence _ 0 _).1 h with
        ⟨m, _, _, heq⟩ | ⟨m, _, _, hgate, heq⟩
      · simp at heq
      · injection heq with hjm
        subst hjm
        exact absurd ⟨rfl, hjpos⟩ hgate
    · exact hext _ ((seqAsyncFrom_settle_start _ _ 0 j hjpos h).trans
        (List.sublist_append_right _ _))
  · intro i j hij hjmem
    rcases hmem (Ev.transferStart j) rfl hjmem with h | h
    · rcases (syncFrom_mem_iff BatchMode.Sequence _ 0 _).1 h with
        ⟨m, _, _, heq⟩ | ⟨m, _, _, hgate, heq⟩
      · simp at heq
      · injection heq with hjm
        subst hjm
        exact absurd ⟨rfl, by omega⟩ hgate
    · rcases seqAsyncFrom_start_bounds _ _ 0 j h with ⟨_, hjn, hj0⟩
      rcases Nat.eq_zero_or_pos i with rfl | hipos
      · have h0 : Ev.transferStart 0 ∈
            syncEvents BatchMode.Sequence opts.files.length :=
          (syncFrom_mem_iff _ _ 0 _).2 (Or.inr ⟨0, Nat.le_refl 0, by omega, by simp, rfl⟩)
        exact hext _ (List.Sublist.append (List.singleton_sublist.mpr h0)
          (List.singleton_sublist.mpr h))
      · exact hext _ ((seqAsyncFrom_start_start _ _ 0 i j (Nat.zero_le i) hipos hij
          h).trans (List.sublist_append_right _ _))
  · intro i hi j hjmem
    rcases hmem (Ev.transferSettle j) rfl hjmem with h | h
    · rcases (syncFrom_mem_iff BatchMode.Sequence _ 0 _).1 h with
        ⟨m, _, _, heq⟩ | ⟨m, _, _, _, heq⟩ <;> simp at heq
    · have hprep : Ev.prep i ∈ syncEvents BatchMode.Sequence opts.files.length :=
        (syncFrom_mem_iff _ _ 0 _).2 (Or.inl ⟨i, Nat.zero_le i, by omega, rfl⟩)
      exact hext _ (List.Sublist.append (List.singleton_sublist.mpr hprep)
        (List.singleton_sublist.mpr h))

/-- Witness for C3 at a concrete two-file sequential batch. -/
theorem C3_witness :
    [Ev.transferSettle 0, Ev.transferStart 1].Sublist
      (uploadRun exEnv exCfg [exProfile] (exLookup okSeqUploader) [] exTwoFiles).1 := by
  have h := (C3_sequence_gating exEnv exCfg [exProfile] (exLookup okSeqUploader) []
    exTwoFiles exProfile okSeqUploader (by decide) rfl rfl).1 1 (by decide) (by decide)
  simpa using h

/-- C4 fails on the code as stated: under `Parallel` mode each `toUpload`
invokes its transfer synchronously before the next file's preparation runs,
so on a two-file batch task 0's transfer begins before task 1's preparation
— the whole batch's preparation does not complete before any transfer is
invoked. -/
theorem C4_counterexample :
    Ev.prep 1 ∈
      (uploadRun exEnv exCfg [exProfile] (exLookup okParUploader) [0, 1] exTwoFiles).1 ∧
    Ev.transferStart 0 ∈
      (uploadRun exEnv exCfg [exProfile] (exLookup okParUploader) [0, 1] exTwoFiles).1 ∧
    ¬ [Ev.prep 1, Ev.transferStart 0].Sublist
      (uploadRun exEnv exCfg [exProfile] (exLookup okParUploader) [0, 1] exTwoFiles).1 := by
  decide

/-- C4 amended: every task's preparation (rename-resolved name, inferred MIME
type, fresh id, timestamp) happens synchronously, in submission order, and
every preparation precedes every transfer settlement — so submission order is
fixed before any asynchronous completion — and each task's own transfer
invocation follows its own preparation; but later tasks' preparations follow
earlier tasks' transfer invocations rather than preceding them. -/
theorem C4_preparation_order (env : Env) (cfg : Configuration)
    (profiles : List UploaderProfile) (getU : String → Option Uploader)
    (sched : List Nat) (opts : UploadOptions) (p : UploaderProfile) (u : Uploader)
    (hp : selectProfile opts profiles cfg.defaultUploaderProfileId = some p)
    (hu : getU p.uploaderName = some u) :
    (∀ i, i < opts.files.length →
      Ev.prep i ∈ (uploadRun env cfg profiles getU sched opts).1) ∧
    (∀ i j, i < j → j < opts.files.length →
      [Ev.prep i, Ev.prep j].Sublist (uploadRun env cfg profiles getU sched opts).1) ∧
    (∀ i, i < opts.files.length → ∀ j,
      Ev.transferSettle j ∈ (uploadRun env cfg profiles getU sched opts).1 →
      [Ev.prep i, Ev.transferSettle j].Sublist
        (uploadRun env cfg profiles getU sched opts).1) ∧
    (∀ i, Ev.transferStart i ∈ (uploadRun env cfg profiles getU sched opts).1 →
      [Ev.prep i, Ev.transferStart i].Sublist
        (uploadRun env cfg profiles getU sched opts).1) := by
  have hEq := uploadRun_resolved env cfg profiles getU sched opts p u hp hu
  have hpost := postEvents_no_task env cfg opts (runBatch env cfg p.id u opts sched)
  cases hm : u.batchUploadMode with
  | Parallel =>
    have hev : (runBatch env cfg p.id u opts sched).events =
        syncEvents BatchMode.Parallel opts.files.length ++
          parAsync (stOpt env cfg p.id u opts) sched := by
      simp [runBatch, hm]
    have hmem : ∀ e, Ev.isTaskEv e = true →
        e ∈ (uploadRun env cfg profiles getU sched opts).1 →
        e ∈ syncEvents BatchMode.Parallel opts.files.length ∨
          e ∈ parAsync (stOpt env cfg p.id u opts) sched := by
      intro e hte he
      rw [hEq] at he
      rcases List.mem_cons.mp he with rfl | he2
      · simp [Ev.isTaskEv] at hte
      · rcases List.mem_append.mp he2 with h | h
        · rw [hev] at h
          exact List.mem_append.mp h
        · rw [hpost e h] at hte
          cases hte
    have hext : ∀ l : List Ev,
        l.Sublist (syncEvents BatchMode.Parallel opts.files.length ++
          parAsync (stOpt env cfg p.id u opts) sched) →
        l.Sublist (uploadRun env cfg profiles getU sched opts).1 := by
      intro l hl
      rw [hEq]
      refine List.Sublist.cons _ ?_
      rw [hev]
      exact hl.trans (List.sublist_append_left _ _)
    refine ⟨?_, ?_, ?_, ?_⟩
    · intro i hi
      rw [hEq]
      refine List.mem_cons_of_mem _ (List.mem_append.mpr (Or.inl ?_))
      rw [hev]
      exact List.mem_append.mpr (Or.inl
        ((syncFrom_mem_iff _ _ 0 _).2 (Or.inl ⟨i, Nat.zero_le i, by omega, rfl⟩)))
    · intro i j hij hj
      exact hext _ ((syncFrom_prep_prep _ _ 0 i j (Nat.zero_le i) hij (by omega)).trans
        (List.sublist_append_left _ _))
    · intro i hi j hjmem
      rcases hmem (Ev.transferSettle j) rfl hjmem with h | h
      · rcases (syncFrom_mem_iff _ _ 0 _).1 h with
          ⟨m, _, _, heq⟩ | ⟨m, _, _, _, heq⟩ <;> simp at heq
      · have hprep : Ev.prep i ∈ syncEvents BatchMode.Parallel opts.files.length :=
          (syncFrom_mem_iff _ _ 0 _).2 (Or.inl ⟨i, Nat.zero_le i, by omega, rfl⟩)
        exact hext _ (List.Sublist.append (List.singleton_sublist.mpr hprep)
          (List.singleton_sublist.mpr h))
    · intro i himem
      rcases hmem (Ev.transferStart i) rfl himem with h | h
      · rcases (syncFrom_mem_iff _ _ 0 _).1 h with
          ⟨m, _, _, heq⟩ | ⟨m, hm1, hm2, hgate, heq⟩
        · simp at heq
        · injection heq with him
          subst him
          exact hext _ ((syncFrom_prep_start _ _ 0 i hm1 hm2 hgate).trans
            (List.sublist_append_left _ _))
      · rcases parAsync_mem_shape _ _ _ h with ⟨j, heq⟩
        simp at heq
  | Sequence =>
    have hev : (runBatch env cfg p.id u opts sched).events =
        syncEvents BatchMode.Sequence opts.files.length ++
          seqAsyncFrom (stOpt env cfg p.id u opts) 0 opts.files.length := by
      simp [runBatch, hm]
    have hmem : ∀ e, Ev.isTaskEv e = true →
        e ∈ (uploadRun env cfg profiles getU sched opts).1 →
        e ∈ syncEvents BatchMode.Sequence opts.files.length ∨
          e ∈ seqAsyncFrom (stOpt env cfg p.id u opts) 0 opts.files.length := by
      intro e hte he
      rw [hEq] at he
      rcases List.mem_cons.mp he with rfl | he2
      · simp [Ev.isTaskEv] at hte
      · rcases List.mem_append.mp he2 with h | h
        · rw [hev] at h
          exact List.mem_append.mp h
        · rw [hpost e h] at hte
          cases hte
    have hext : ∀ l : List Ev,
        l.Sublist (syncEvents BatchMode.Sequence opts.files.length ++
          seqAsyncFrom (stOpt env cfg p.id u opts) 0 opts.files.length) →
        l.Sublist (uploadRun env cfg profiles getU sched opts).1 := by
      intro l hl
      rw [hEq]
      refine List.Sublist.cons _ ?_
      rw [hev]
      exact hl.trans (List.sublist_append_left _ _)
    refine ⟨?_, ?_, ?_, ?_⟩
    · intro i hi
      rw [hEq]
      refine List.mem_cons_of_mem _ (List.mem_append.mpr (Or.inl ?_))
      rw [hev]
      exact List.mem_append.mpr (Or.inl
        ((syncFrom_mem_iff _ _ 0 _).2 (Or.inl ⟨i, Nat.zero_le i, by omega, rfl⟩)))
    · intro i j hij hj
      exact hext _ ((syncFrom_prep_prep _ _ 0 i j (Nat.zero_le i) hij (by omega)).trans
        (List.sublist_append_left _ _))
    · intro i hi j hjmem
      rcases hmem (Ev.transferSettle j) rfl hjmem with h | h
      · rcases (syncFrom_mem_iff _ _ 0 _).1 h with
          ⟨m, _, _, heq⟩ | ⟨m, _, _, _, heq⟩ <;> simp at heq
      · have hprep : Ev.prep i ∈ syncEvents BatchMode.Sequence opts.files.length :=
          (syncFrom_mem_iff _ _ 0 _).2 (Or.inl ⟨i, Nat.zero_le i, by omega, rfl⟩)
        exact hext _ (List.Sublist.append (List.singleton_sublist.mpr hprep)
          (List.singleton_sublist.mpr h))
    · intro i himem
      rcases hmem (Ev.transferStart i) rfl himem with h | h
      · rcases (syncFrom_mem_iff _ _ 0 _).1 h with
          ⟨m, _, _, heq⟩ | ⟨m, hm1, hm2, hgate, heq⟩
        · simp at heq
        · injection heq with him
          subst him
          exact hext _ ((syncFrom_prep_start _ _ 0 i hm1 hm2 hgate).trans
            (List.sublist_append_left _ _))
      · rcases seqAsyncFrom_start_bounds _ _ 0 i h with ⟨_, hin, hi0⟩
        have hprep : Ev.prep i ∈ syncEvents BatchMode.Sequence opts.files.length :=
          (syncFrom_mem_iff _ _ 0 _).2 (Or.inl ⟨i, Nat.zero_le i, by omega, rfl⟩)
        exact hext _ (List.Sublist.append (List.singleton_sublist.mpr hprep)
          (List.singleton_sublist.mpr h))

/-- Witness for the amended C4 at a concrete two-file parallel batch. -/
theorem C4_witness :
    [Ev.prep 0, Ev.prep 1].Sublist
      (uploadRun exEnv exCfg [exProfile] (exLookup okParUploader) [0, 1] exTwoFiles).1 :=
  (C4_preparation_order exEnv exCfg [exProfile] (exLookup okParUploader) [0, 1]
    exTwoFiles exProfile okParUploader (by decide) rfl).2.1 0 1 (by decide) (by decide)

/-- C5: a parallel batch of N files whose adapter calls all return structured
verdicts settles with successes + failures = N; the multiset of record ids
across both outcome lists is exactly one fresh id per submission index, and
with an injective id generator no outcome is duplicated. -/
theorem C5_parallel_complete (env : Env) (cfg : Configuration) (pid : String)
    (u : Uploader) (opts : UploadOptions) (sched : List Nat)
    (hmode : u.batchUploadMode = BatchMode.Parallel)
    (hsched : sched.Perm (List.range opts.files.length))
    (hok : ∀ i, i < opts.files.length →
      structuredAt (stOpt env cfg pid u opts i) = true) :
    (runBatch env cfg pid u opts sched).successRes.length +
      (runBatch env cfg pid u opts sched).failRes.length = opts.files.length ∧
    ((runBatch env cfg pid u opts sched).successRes.map (fun r => r.id) ++
      (runBatch env cfg pid u opts sched).failRes.map (fun r => r.id)).Perm
      ((List.range opts.files.length).map (fun i => some (env.uuid i))) ∧
    (Function.Injective env.uuid →
      ((runBatch env cfg pid u opts sched).successRes.map (fun r => r.id) ++
        (runBatch env cfg pid u opts sched).failRes.map (fun r => r.id)).Nodup) := by
  have hok2 : ∀ i ∈ sched, structuredAt (stOpt env cfg pid u opts i) = true :=
    fun i hi => hok i (List.mem_range.mp (hsched.mem_iff.1 hi))
  have hlen : sched.length = opts.files.length := by
    rw [hsched.length_eq, List.length_range]
  have hperm : ((runBatch env cfg pid u opts sched).successRes.map (fun r => r.id) ++
      (runBatch env cfg pid u opts sched).failRes.map (fun r => r.id)).Perm
      ((List.range opts.files.length).map (fun i => some (env.uuid i))) := by
    simp only [runBatch, hmode]
    refine (parIds (stOpt env cfg pid u opts) sched hok2).trans ?_
    have hcongr : sched.map (fun i => taskRecordId (stOpt env cfg pid u opts i)) =
        sched.map (fun i => some (env.uuid i)) :=
      List.map_congr_left (fun i hi =>
        stOpt_id env cfg pid u opts i (List.mem_range.mp (hsched.mem_iff.1 hi))
          (hok2 i hi))
    rw [hcongr]
    exact hsched.map _
  refine ⟨?_, hperm, ?_⟩
  · simp only [runBatch, hmode]
    rw [parCounts (stOpt env cfg pid u opts) sched hok2]
    exact hlen
  · intro hinj
    have hnodup : ((List.range opts.files.length).map
        (fun i => some (env.uuid i))).Nodup :=
      List.Nodup.map (fun a b hab => hinj (Option.some_injective _ hab))
        (List.nodup_range _)
    exact hperm.nodup_iff.2 hnodup

/-- Witness for C5 at a concrete two-file parallel batch settling out of
order. -/
theorem C5_witness :
    (runBatch exEnv exCfg "p1" okParUploader exTwoFiles [1, 0]).successRes.length +
      (runBatch exEnv exCfg "p1" okParUploader exTwoFiles [1, 0]).failRes.length = 2 ∧
    ((runBatch exEnv exCfg "p1" okParUploader exTwoFiles [1, 0]).successRes.map
        (fun r => r.id) ++
      (runBatch exEnv exCfg "p1" okParUploader exTwoFiles [1, 0]).failRes.map
        (fun r => r.id)).Perm
      ((List.range 2).map (fun i => some (exEnv.uuid i))) :=
  ⟨(C5_parallel_complete exEnv exCfg "p1" okParUploader exTwoFiles [1, 0] rfl
      (by decide) (by decide)).1,
    (C5_parallel_complete exEnv exCfg "p1" okParUploader exTwoFiles [1, 0] rfl
      (by decide) (by decide)).2.1⟩

/-- C7: when no profile matches, or an adapter is missing for the resolved
profile's backend name, the whole batch short-circuits: `false` is returned
(no throw), exactly one failure notification is shown, no task runs and no
history is written, and the notification body distinguishes the failure
kinds (unknown explicit id / no default configured / unknown adapter). -/
theorem C7_resolution_short_circuit (env : Env) (cfg : Configuration)
    (profiles : List UploaderProfile) (getU : String → Option Uploader)
    (sched : List Nat) (opts : UploadOptions)
    (h : selectProfile opts profiles cfg.defaultUploaderProfileId = none ∨
      ∃ p, selectProfile opts profiles cfg.defaultUploaderProfileId = some p ∧
        getU p.uploaderName = none) :
    (uploadRun env cfg profiles getU sched opts).2 = UploadReturn.returnedFalse ∧
    (uploadRun env cfg profiles getU sched opts).1.countP Ev.isNotify = 1 ∧
    (uploadRun env cfg profiles getU sched opts).1.countP Ev.isHistory = 0 ∧
    (∀ e ∈ (uploadRun env cfg profiles getU sched opts).1, Ev.isTaskEv e = false) ∧
    (selectProfile opts profiles cfg.defaultUploaderProfileId = none →
      strFalsy opts.customUploaderProfileId = false →
      (uploadRun env cfg profiles getU sched opts).1 =
        [Ev.notify "上传操作异常" "上传器配置不存在"]) ∧
    (selectProfile opts profiles cfg.defaultUploaderProfileId = none →
      strFalsy opts.customUploaderProfileId = true →
      (uploadRun env cfg profiles getU sched opts).1 =
        [Ev.notify "上传操作异常"
          (if 0 < profiles.length then "请配置默认的上传器" else "请添加上传器配置")]) ∧
    (∀ p, selectProfile opts profiles cfg.defaultUploaderProfileId = some p →
      getU p.uploaderName = none →
      (uploadRun env cfg profiles getU sched opts).1 =
        [Ev.notify "上传操作异常" ("没有找到" ++ p.uploaderName ++ "上传器")]) := by
  rcases h with hnone | ⟨p, hp, hu⟩
  · have hEq : uploadRun env cfg profiles getU sched opts =
        (if strFalsy opts.customUploaderProfileId then
          (if 0 < profiles.length then
            ([Ev.notify "上传操作异常" "请配置默认的上传器"], UploadReturn.returnedFalse)
          else
            ([Ev.notify "上传操作异常" "请添加上传器配置"], UploadReturn.returnedFalse))
        else
          ([Ev.notify "上传操作异常" "上传器配置不存在"], UploadReturn.returnedFalse)) := by
      simp only [uploadRun, hnone]
    rw [hEq]
    split_ifs with h1 h2 <;>
      simp [List.countP_cons, Ev.isNotify, Ev.isHistory, Ev.isTaskEv, hnone, *]
  · have hEq : uploadRun env cfg profiles getU sched opts =
        ([Ev.notify "上传操作异常" ("没有找到" ++ p.uploaderName ++ "上传器")],
          UploadReturn.returnedFalse) := by
      simp [uploadRun, hp, hu]
    rw [hEq]
    refine ⟨rfl, by simp [List.countP_cons, Ev.isNotify],
      by simp [List.countP_cons, Ev.isHistory], by simp [Ev.isTaskEv], ?_, ?_, ?_⟩
    · intro hn
      rw [hp] at hn
      cases hn
    · intro hn
      rw [hp] at hn
      cases hn
    · intro q hq huq
      rw [hp] at hq
      injection hq with hq
      subst hq
      rfl

/-- Witness for C7 at a concrete request with an unmatched explicit id. -/
theorem C7_witness :
    (uploadRun exEnv exCfg [exProfile] (exLookup okParUploader) []
      exBadCustomOpts).2 = UploadReturn.returnedFalse ∧
    (uploadRun exEnv exCfg [exProfile] (exLookup okParUploader) []
      exBadCustomOpts).1.countP Ev.isNotify = 1 ∧
    (uploadRun exEnv exCfg [exProfile] (exLookup okParUploader) []
      exBadCustomOpts).1.countP Ev.isHistory = 0 ∧
    (∀ e ∈ (uploadRun exEnv exCfg [exProfile] (exLookup okParUploader) []
      exBadCustomOpts).1, Ev.isTaskEv e = false) ∧
    (selectProfile exBadCustomOpts [exProfile] exCfg.defaultUploaderProfileId = none →
      strFalsy exBadCustomOpts.customUploaderProfileId = false →
      (uploadRun exEnv exCfg [exProfile] (exLookup okParUploader) []
        exBadCustomOpts).1 = [Ev.notify "上传操作异常" "上传器配置不存在"]) ∧
    (selectProfile exBadCustomOpts [exProfile] exCfg.defaultUploaderProfileId = none →
      strFalsy exBadCustomOpts.customUploaderProfileId = true →
      (uploadRun exEnv exCfg [exProfile] (exLookup okParUploader) []
        exBadCustomOpts).1 =
        [Ev.notify "上传操作异常"
          (if 0 < ([exProfile] : List UploaderProfile).length then "请配置默认的上传器"
            else "请添加上传器配置")]) ∧
    (∀ p, selectProfile exBadCustomOpts [exProfile] exCfg.defaultUploaderProfileId =
        some p →
      exLookup okParUploader p.uploaderName = none →
      (uploadRun exEnv exCfg [exProfile] (exLookup okParUploader) []
        exBadCustomOpts).1 =
        [Ev.notify "上传操作异常" ("没有找到" ++ p.uploaderName ++ "上传器")]) :=
  C7_resolution_short_circuit exEnv exCfg [exProfile] (exLookup okParUploader) []
    exBadCustomOpts (Or.inl (by decide))

end Aragorn
